import Mathlib

/-!
Shallow embedding of `src/analyze_results.py` (the Wa-Tor benchmark analyzer).

Modeling conventions:

* File input is elided: `parse_results` receives the file content as a
  `List Char` (the Python function first reads the whole file into a string
  and then works only on that string).
* Python floats are modeled as rationals (`ℚ`).  Every numeric fact settled
  below involves values and operations that are also exact in IEEE double
  precision (integer-valued quotients such as `750000 / 1000`, products such
  as `1.2 * 1000` whose rounded result is the exact integer `1200`, and
  `x / x = 1` for finite nonzero `x`), so the rational model agrees with the
  floating-point behavior of the code at every input used in a theorem below.
* A raised Python exception is modeled as `Except.error` carrying the
  exception message; a normal return is `Except.ok`.
* `re.findall(r'Threads: (\d+).*?Execution Time: ([\d.]+)(ms|µs|s)', content,
  re.DOTALL)` is modeled by the explicit scanner `parseMatches`.  The
  translation is justified as follows (each point is a property of the Python
  regex engine on this particular pattern):
  - findall scans start positions left to right; at the first position where
    the pattern matches it records the groups and resumes scanning at the end
    of the match (non-overlapping matches); on failure it advances one
    character.
  - `(\d+)` is greedy.  Backtracking it to a shorter digit run never changes
    the outcome: the tail of the pattern continues with `.*?Execution`, and a
    tail start inside the digit run fails at once because a digit is not `E`;
    the remaining tail start positions were already covered by `.*?` from the
    end of the full run.  So the model takes the maximal digit run, at least
    one digit.
  - `.*?` is lazy and, under DOTALL, matches every character; it is exactly a
    forward scan for the first position where the literal
    `Execution Time: ` followed by a number-and-unit token matches
    (`findTime`).
  - `([\d.]+)` is greedy, and the characters that can start a unit
    (`m`, `µ`, `s`) are not in the class `[\d.]`, so backtracking the number
    run never helps either: the model takes the maximal run of digits and
    dots, at least one character, and then requires a unit alternative, tried
    in the order `ms`, `µs`, `s`.
  - `\d` is modeled as an ASCII digit (the inputs of interest contain no
    non-ASCII decimal digits).
* `parseMatches` uses fuel for termination.  The fuel `length + 1` can never
  run out: every recursive call consumes at least one character of the input
  while spending exactly one unit of fuel, so the fuel stays strictly above
  the length of the remaining input.
* `float(s)` applied to a string matched by `[\d.]+` (so: digits and dots
  only) succeeds exactly when the string has at most one dot and at least one
  digit, and then denotes integerPart + fractionPart / 10 ^ (its length);
  this is `pyFloat`.  On strings with two dots or with no digit at all
  (for example `1.2.3` or `.`), `float` raises `ValueError`.
* `generate_report` builds the fixed markdown text around the data; the
  claims under study concern the data content, not the literal prose, so the
  report is modeled as a structure holding the table rows (the zip of the
  four input lists, as in the Python loop) and the observation data: index of
  the maximum speedup (`list.index` of `max`, hence first occurrence), its
  thread count, its value, the baseline time `times[0]`, and which of the
  three narrative branches is emitted.  The fallible operations are modeled
  in the order the Python code performs them: `max(speedups)` (ValueError on
  an empty list), `threads[idx]` (IndexError when out of range), `times[0]`
  (IndexError on an empty list).
* `main` is modeled without its file writes and without the optional chart
  rendering (the latter is wrapped in try/except in the source and cannot
  affect the outcomes studied here): the outcome is `noResults` (the printed
  no-data error and `sys.exit(1)`), `reported r` (a composed report), or
  `crashed msg` (an uncaught exception).
-/

/- The Batteries rational operations are `irreducible`; making them
semireducible in this file lets `decide` evaluate closed rational facts. -/
attribute [local semireducible] Rat.mul Rat.inv Rat.add Rat.sub

/-- DecidableEq for `Except`, needed to settle closed equations by `decide`. -/
instance {ε α : Type} [DecidableEq ε] [DecidableEq α] : DecidableEq (Except ε α) := fun a b =>
  match a, b with
  | Except.error e₁, Except.error e₂ =>
    if h : e₁ = e₂ then isTrue (by rw [h]) else isFalse (fun hh => h (Except.error.inj hh))
  | Except.error _, Except.ok _ => isFalse (fun hh => Except.noConfusion hh)
  | Except.ok _, Except.error _ => isFalse (fun hh => Except.noConfusion hh)
  | Except.ok a₁, Except.ok a₂ =>
    if h : a₁ = a₂ then isTrue (by rw [h]) else isFalse (fun hh => h (Except.ok.inj hh))

/-- A character of the class `[\d.]` (digit or dot). -/
def isNumChar (c : Char) : Bool := c.isDigit || c = '.'

/-- The literal `Threads: ` of the pattern. -/
def threadsLit : List Char := "Threads: ".toList

/-- The literal `Execution Time: ` of the pattern. -/
def execLit : List Char := "Execution Time: ".toList

/-- Match a literal at the head of the input; return the remaining input. -/
def stripLit : List Char → List Char → Option (List Char)
  | [], rest => some rest
  | _ :: _, [] => none
  | p :: ps, c :: cs => if c = p then stripLit ps cs else none

/-- Maximal run of characters satisfying `p`, with the remaining input. -/
def takeRun (p : Char → Bool) : List Char → List Char × List Char
  | [] => ([], [])
  | c :: cs =>
    if p c then
      let r := takeRun p cs
      (c :: r.1, r.2)
    else ([], c :: cs)

/-- The unit alternation `(ms|µs|s)`, tried in that order. -/
def matchUnit (l : List Char) : Option (String × List Char) :=
  match stripLit ['m', 's'] l with
  | some rest => some ("ms", rest)
  | none =>
    match stripLit ['µ', 's'] l with
    | some rest => some ("µs", rest)
    | none =>
      match stripLit ['s'] l with
      | some rest => some ("s", rest)
      | none => none

/-- `([\d.]+)(ms|µs|s)` at the head of the input: the captured number
characters, the matched unit, and the remaining input. -/
def matchNumUnit (l : List Char) : Option (List Char × String × List Char) :=
  let r := takeRun isNumChar l
  if r.1.isEmpty then none
  else
    match matchUnit r.2 with
    | some (u, rest) => some (r.1, u, rest)
    | none => none

/-- The lazy gap `.*?Execution Time: ([\d.]+)(ms|µs|s)`: scan forward for the
first position where the time token matches; return groups and the input
after the match. -/
def findTime : List Char → Option (List Char × String × List Char)
  | [] => none
  | c :: cs =>
    match stripLit execLit (c :: cs) with
    | some afterLit =>
      match matchNumUnit afterLit with
      | some r => some r
      | none => findTime cs
    | none => findTime cs

/-- One findall scan step with fuel: at each position try
`Threads: (\d+).*?Execution Time: ([\d.]+)(ms|µs|s)`; on success emit the
three groups and resume after the match, otherwise advance one character. -/
def parseMatchesFuel : Nat → List Char → List (List Char × List Char × String)
  | 0, _ => []
  | _ + 1, [] => []
  | fuel + 1, c :: cs =>
    match stripLit threadsLit (c :: cs) with
    | some afterThreads =>
      let d := takeRun Char.isDigit afterThreads
      if d.1.isEmpty then parseMatchesFuel fuel cs
      else
        match findTime d.2 with
        | some (num, u, rest) => (d.1, num, u) :: parseMatchesFuel fuel rest
        | none => parseMatchesFuel fuel cs
    | none => parseMatchesFuel fuel cs

/-- `re.findall` of the fixed pattern over the whole content. -/
def parseMatches (content : List Char) : List (List Char × List Char × String) :=
  parseMatchesFuel (content.length + 1) content

/-- Value of a run of ASCII digits, most significant first (`int(s)`). -/
def digitsToNat (l : List Char) : Nat :=
  l.foldl (fun a c => a * 10 + (c.toNat - 48)) 0

/-- `float(s)` for a string of digits and dots: defined exactly when the
string has at most one dot and at least one digit; `ValueError` otherwise. -/
def pyFloat (s : List Char) : Option ℚ :=
  if s.count '.' ≤ 1 ∧ s.any Char.isDigit then
    some ((digitsToNat (s.takeWhile Char.isDigit) : ℚ) +
      (digitsToNat ((s.dropWhile Char.isDigit).drop 1) : ℚ) /
        (10 : ℚ) ^ ((s.dropWhile Char.isDigit).drop 1).length)
  else
    none

/-- The unit conversion of `parse_results`: seconds times 1000, microseconds
divided by 1000, else (milliseconds) unchanged. -/
def convertToMs (v : ℚ) (u : String) : ℚ :=
  if u = "s" then v * 1000
  else if u = "µs" then v / 1000
  else v

/-- The conversion loop of `parse_results`: `int` on the thread digits (which
cannot fail on a digit run) and `float` on the time characters (which raises
on a malformed number), then unit normalization. -/
def convertMatches : List (List Char × List Char × String) → Except String (List (Nat × ℚ))
  | [] => Except.ok []
  | (d, n, u) :: ms =>
    match pyFloat n with
    | none => Except.error "ValueError: could not convert string to float"
    | some v =>
      match convertMatches ms with
      | Except.error e => Except.error e
      | Except.ok rest => Except.ok ((digitsToNat d, convertToMs v u) :: rest)

/-- `parse_results`, after the file has been read into a string: the pair of
the thread-count list and the normalized-time list. -/
def parse_results (content : List Char) : Except String (List Nat × List ℚ) :=
  match convertMatches (parseMatches content) with
  | Except.error e => Except.error e
  | Except.ok l => Except.ok (l.map Prod.fst, l.map Prod.snd)

/-- Python division: `ZeroDivisionError` on a zero divisor. -/
def pyDiv (a b : ℚ) : Except String ℚ :=
  if b = 0 then Except.error "ZeroDivisionError: float division by zero"
  else Except.ok (a / b)

/-- The comprehension `[base_time / t for t in times]`, left to right, first
zero divisor raising. -/
def mapDiv (b : ℚ) : List ℚ → Except String (List ℚ)
  | [] => Except.ok []
  | t :: ts =>
    match pyDiv b t with
    | Except.error e => Except.error e
    | Except.ok s =>
      match mapDiv b ts with
      | Except.error e => Except.error e
      | Except.ok ss => Except.ok (s :: ss)

/-- `calculate_speedup`: empty list when the input is empty or its first time
is zero, otherwise the baseline divided by each time.  The thread-count
argument is unused, exactly as in the source. -/
def calculate_speedup (_threads : List Nat) (times : List ℚ) : Except String (List ℚ) :=
  match times with
  | [] => Except.ok []
  | t0 :: _ => if t0 = 0 then Except.ok [] else mapDiv t0 times

/-- The comprehension `[s / t * 100 for s, t in zip(speedups, threads)]`. -/
def effMap : List (ℚ × Nat) → Except String (List ℚ)
  | [] => Except.ok []
  | (s, t) :: ps =>
    match pyDiv s (t : ℚ) with
    | Except.error e => Except.error e
    | Except.ok q =>
      match effMap ps with
      | Except.error e => Except.error e
      | Except.ok qs => Except.ok (q * 100 :: qs)

/-- `calculate_efficiency`: speedup over thread count times 100, zipped with
truncation to the shorter list. -/
def calculate_efficiency (threads : List Nat) (speedups : List ℚ) : Except String (List ℚ) :=
  effMap (speedups.zip threads)

/-- Python `max` over a nonempty list: fold keeping the current value on
ties, so the first maximal element wins. -/
def pyMaxAux (b : ℚ) : List ℚ → ℚ
  | [] => b
  | x :: xs => pyMaxAux (if b < x then x else b) xs

/-- Python `max`: `ValueError` on an empty list. -/
def pyMax : List ℚ → Option ℚ
  | [] => none
  | c :: cs => some (pyMaxAux c cs)

/-- Python `list.index`: position of the first element equal to the value. -/
def pyIndex : List ℚ → ℚ → Option Nat
  | [], _ => none
  | x :: xs, v => if x = v then some 0 else (pyIndex xs v).map (· + 1)

/-- The table loop of `generate_report`: `zip` of the four lists, truncating
to the shortest. -/
def zip4 : List Nat → List ℚ → List ℚ → List ℚ → List (Nat × ℚ × ℚ × ℚ)
  | t :: ts, x :: xs, y :: ys, z :: zs => (t, x, y, z) :: zip4 ts xs ys zs
  | _, _, _, _ => []

/-- The three narrative branches of the observations section. -/
inductive ScalingBranch : Type
  | limited
  | good
  | moderate
deriving DecidableEq

/-- The data content of the composed markdown report: the table rows and the
observation values (the fixed prose around them carries no data). -/
structure Report : Type where
  tableRows : List (Nat × ℚ × ℚ × ℚ)
  maxSpeedupIdx : Nat
  bestThreads : Nat
  maxSpeedup : ℚ
  baselineTime : ℚ
  branch : ScalingBranch
deriving DecidableEq

/-- `generate_report`: the table rows, then `max(speedups)` (ValueError on an
empty list), `speedups.index(max)`, `threads[idx]`, `times[0]`, and the
threshold chain `max_speedup < 1.5` / `max_speedup > 2.0` / otherwise. -/
def generate_report (threads : List Nat) (times speedups efficiencies : List ℚ) :
    Except String Report :=
  let rows := zip4 threads times speedups efficiencies
  match pyMax speedups with
  | none => Except.error "ValueError: max() arg is an empty sequence"
  | some m =>
    match pyIndex speedups m with
    | none => Except.error "ValueError: x is not in list"
    | some idx =>
      match threads[idx]? with
      | none => Except.error "IndexError: list index out of range"
      | some bt =>
        match times[0]? with
        | none => Except.error "IndexError: list index out of range"
        | some t0 =>
          Except.ok
            { tableRows := rows
              maxSpeedupIdx := idx
              bestThreads := bt
              maxSpeedup := m
              baselineTime := t0
              branch :=
                if m < 3 / 2 then ScalingBranch.limited
                else if 2 < m then ScalingBranch.good
                else ScalingBranch.moderate }

/-- Outcome of one driver run: the explicit no-data exit, a composed report,
or an uncaught exception. -/
inductive MainOutcome : Type
  | noResults
  | reported (r : Report)
  | crashed (msg : String)
deriving DecidableEq

/-- The driver `main`, minus its file writes and the optional chart step:
parse, bail out with the no-data message when no thread counts were found,
otherwise compute metrics and compose the report; any uncaught exception
crashes the run. -/
def main_run (content : List Char) : MainOutcome :=
  match parse_results content with
  | Except.error e => MainOutcome.crashed e
  | Except.ok (threads, times) =>
    if threads = [] then MainOutcome.noResults
    else
      match calculate_speedup threads times with
      | Except.error e => MainOutcome.crashed e
      | Except.ok speedups =>
        match calculate_efficiency threads speedups with
        | Except.error e => MainOutcome.crashed e
        | Except.ok efficiencies =>
          match generate_report threads times speedups efficiencies with
          | Except.error e => MainOutcome.crashed e
          | Except.ok r => MainOutcome.reported r

/-- Concrete input for the dangling-thread-count behavior. -/
def c3text : List Char := "Threads: 4 and Threads: 8 with Execution Time: 100ms".toList

/-- Concrete input with a trailing thread count and no time token after it. -/
def c3tailText : List Char := "Threads: 2 then Execution Time: 5ms then Threads: 9".toList

/-- Concrete input whose matched time field is a malformed number. -/
def c4text : List Char := "Threads: 1 with Execution Time: 1.2.3ms".toList

/-- Concrete input with a zero thread count. -/
def c5text : List Char := "Threads: 0 with Execution Time: 5ms".toList

/-- Concrete input whose baseline execution time is zero. -/
def c2text : List Char :=
  "Threads: 1 with Execution Time: 0ms and Threads: 2 with Execution Time: 5ms".toList

/-- Concrete input exercising microsecond and second normalization. -/
def c7text : List Char :=
  "Threads: 1 with Execution Time: 750000µs and Threads: 2 with Execution Time: 1.2s".toList

/-! Helper lemmas about the embedded operations. -/

/-- A member of the result of a successful `mapDiv` run is a quotient; when
every divisor is nonzero the run succeeds with the pointwise quotients. -/
theorem mapDiv_ok_of_ne_zero (b : ℚ) (l : List ℚ) (h : ∀ t ∈ l, t ≠ 0) :
    mapDiv b l = Except.ok (l.map (fun t => b / t)) := by
  induction l with
  | nil => rfl
  | cons t ts ih =>
    have ht : t ≠ 0 := h t (List.mem_cons_self t ts)
    have hts := ih (fun x hx => h x (List.mem_cons_of_mem t hx))
    simp [mapDiv, pyDiv, if_neg ht, hts]

/-- When some divisor is zero, `mapDiv` raises the division error. -/
theorem mapDiv_error_of_zero_mem (b : ℚ) (l : List ℚ) (h : 0 ∈ l) :
    mapDiv b l = Except.error "ZeroDivisionError: float division by zero" := by
  induction l with
  | nil => cases h
  | cons t ts ih =>
    by_cases ht : t = 0
    · subst ht; simp [mapDiv, pyDiv]
    · have h0 : 0 ∈ ts := by
        rcases List.mem_cons.mp h with h1 | h2
        · exact absurd h1.symm ht
        · exact h2
      simp [mapDiv, pyDiv, if_neg ht, ih h0]

/-- When every paired thread count is nonzero, `effMap` succeeds with the
pointwise efficiencies. -/
theorem effMap_ok_of_ne_zero (ps : List (ℚ × Nat)) (h : ∀ p ∈ ps, p.2 ≠ 0) :
    effMap ps = Except.ok (ps.map (fun p => p.1 / (p.2 : ℚ) * 100)) := by
  induction ps with
  | nil => rfl
  | cons p ps ih =>
    obtain ⟨s, t⟩ := p
    have ht : t ≠ 0 := h (s, t) (List.mem_cons_self _ _)
    have htq : (t : ℚ) ≠ 0 := Nat.cast_ne_zero.mpr ht
    have hps := ih (fun q hq => h q (List.mem_cons_of_mem _ hq))
    simp only [effMap, pyDiv, hps, List.map_cons]
    rw [if_neg htq]

/-- The fold behind Python max only ever moves up. -/
theorem pyMaxAux_le (b : ℚ) (l : List ℚ) : b ≤ pyMaxAux b l := by
  induction l generalizing b with
  | nil => exact le_refl b
  | cons x xs ih =>
    refine le_trans ?_ (ih (if b < x then x else b))
    split
    · exact le_of_lt (by assumption)
    · exact le_refl b

/-- The fold behind Python max returns its seed or a list element. -/
theorem pyMaxAux_mem_or (b : ℚ) (l : List ℚ) : pyMaxAux b l = b ∨ pyMaxAux b l ∈ l := by
  induction l generalizing b with
  | nil => exact Or.inl rfl
  | cons x xs ih =>
    simp only [pyMaxAux]
    rcases ih (if b < x then x else b) with h | h
    · rw [h]
      by_cases hb : b < x
      · rw [if_pos hb]
        exact Or.inr (List.mem_cons_self _ _)
      · rw [if_neg hb]
        exact Or.inl rfl
    · exact Or.inr (List.mem_cons_of_mem _ h)

/-- The fold behind Python max dominates every list element. -/
theorem pyMaxAux_ge (b : ℚ) (l : List ℚ) : ∀ x ∈ l, x ≤ pyMaxAux b l := by
  induction l generalizing b with
  | nil => intro x hx; cases hx
  | cons y ys ih =>
    intro x hx
    rcases List.mem_cons.mp hx with rfl | hx2
    · simp only [pyMaxAux]
      refine le_trans ?_ (pyMaxAux_le (if b < x then x else b) ys)
      split
      · exact le_refl x
      · exact le_of_not_lt (by assumption)
    · simp only [pyMaxAux]
      exact ih _ x hx2

/-- `pyMax` of a list returns one of its elements. -/
theorem pyMax_mem {l : List ℚ} {m : ℚ} (h : pyMax l = some m) : m ∈ l := by
  cases l with
  | nil => cases h
  | cons c cs =>
    have hm : pyMaxAux c cs = m := Option.some.inj h
    rcases pyMaxAux_mem_or c cs with h1 | h1
    · rw [hm] at h1; rw [← h1]; exact List.mem_cons_self _ _
    · rw [hm] at h1; exact List.mem_cons_of_mem _ h1

/-- `pyMax` dominates every element. -/
theorem pyMax_ge {l : List ℚ} {m : ℚ} (h : pyMax l = some m) : ∀ x ∈ l, x ≤ m := by
  cases l with
  | nil => cases h
  | cons c cs =>
    have hm : pyMaxAux c cs = m := Option.some.inj h
    intro x hx
    rcases List.mem_cons.mp hx with rfl | hx2
    · rw [← hm]; exact pyMaxAux_le x cs
    · rw [← hm]; exact pyMaxAux_ge c cs x hx2

/-- `pyIndex` succeeds on members. -/
theorem pyIndex_isSome {l : List ℚ} {v : ℚ} (h : v ∈ l) : ∃ i, pyIndex l v = some i := by
  induction l with
  | nil => cases h
  | cons x xs ih =>
    by_cases hx : x = v
    · exact ⟨0, by simp [pyIndex, hx]⟩
    · rcases List.mem_cons.mp h with rfl | h2
      · exact absurd rfl hx
      · obtain ⟨i, hi⟩ := ih h2
        exact ⟨i + 1, by simp [pyIndex, hx, hi]⟩

/-- The position returned by `pyIndex` holds the value. -/
theorem pyIndex_getElem {l : List ℚ} {v : ℚ} {i : Nat} (h : pyIndex l v = some i) :
    l[i]? = some v := by
  induction l generalizing i with
  | nil => cases h
  | cons x xs ih =>
    by_cases hx : x = v
    · simp only [pyIndex, if_pos hx] at h
      cases h
      simp [hx]
    · simp only [pyIndex, if_neg hx] at h
      rcases ho : pyIndex xs v with _ | j
      · rw [ho] at h; cases h
      · rw [ho] at h
        have h2 : j + 1 = i := by simpa using h
        subst h2
        simpa using ih ho

/-- `pyIndex` returns the first matching position. -/
theorem pyIndex_first {l : List ℚ} {v : ℚ} {i : Nat} (h : pyIndex l v = some i) :
    ∀ j, j < i → l[j]? ≠ some v := by
  induction l generalizing i with
  | nil => cases h
  | cons x xs ih =>
    by_cases hx : x = v
    · simp only [pyIndex, if_pos hx] at h
      cases h
      intro j hj
      cases hj
    · simp only [pyIndex, if_neg hx] at h
      rcases ho : pyIndex xs v with _ | k
      · rw [ho] at h; cases h
      · rw [ho] at h
        have h2 : k + 1 = i := by simpa using h
        subst h2
        intro j hj
        cases j with
        | zero =>
          simp only [List.getElem?_cons_zero]
          intro hh
          exact hx (Option.some.inj hh)
        | succ j2 =>
          have := ih ho j2 (Nat.lt_of_succ_lt_succ hj)
          simpa using this

/-- A successful optional lookup stays inside the list. -/
theorem getElem?_lt_length {α : Type} {l : List α} {i : Nat} {a : α}
    (h : l[i]? = some a) : i < l.length := by
  by_contra hc
  rw [List.getElem?_eq_none (Nat.le_of_not_lt hc)] at h
  cases h

/-- Inside the list, the optional lookup succeeds. -/
theorem getElem?_isSome_of_lt {α : Type} {l : List α} {i : Nat} (h : i < l.length) :
    ∃ a, l[i]? = some a :=
  ⟨l[i], List.getElem?_eq_getElem h⟩

/-- A value parsed by `pyFloat` is non-negative. -/
theorem pyFloat_nonneg {s : List Char} {v : ℚ} (h : pyFloat s = some v) : 0 ≤ v := by
  unfold pyFloat at h
  split at h
  · cases h
    positivity
  · cases h

/-- Unit normalization preserves non-negativity. -/
theorem convertToMs_nonneg (v : ℚ) (u : String) (hv : 0 ≤ v) : 0 ≤ convertToMs v u := by
  unfold convertToMs
  split
  · exact mul_nonneg hv (by norm_num)
  · split
    · exact div_nonneg hv (by norm_num)
    · exact hv

/-- Every time emitted by the conversion loop is non-negative. -/
theorem convertMatches_ok_nonneg (ms : List (List Char × List Char × String))
    (l : List (Nat × ℚ)) (h : convertMatches ms = Except.ok l) :
    ∀ p ∈ l, 0 ≤ p.2 := by
  induction ms generalizing l with
  | nil =>
    cases h
    intro p hp
    cases hp
  | cons m ms ih =>
    obtain ⟨d, n, u⟩ := m
    simp only [convertMatches] at h
    rcases hf : pyFloat n with _ | v
    · rw [hf] at h; cases h
    · rw [hf] at h
      rcases hc : convertMatches ms with e | rest
      · rw [hc] at h; cases h
      · rw [hc] at h
        cases h
        intro p hp
        rcases List.mem_cons.mp hp with rfl | hp2
        · exact convertToMs_nonneg _ _ (pyFloat_nonneg hf)
        · exact ih rest hc p hp2

/-! Claim theorems. -/

/-- C1: for the empty sample sequence (and the empty metric series the
calculator derives from it), `generate_report` stops with the explicit
empty-sequence failure instead of composing a report document, and the
driver reports the no-data outcome on empty extraction without ever calling
the composer. -/
theorem C1_empty_composer :
    generate_report [] [] [] [] =
      Except.error "ValueError: max() arg is an empty sequence" ∧
    main_run [] = MainOutcome.noResults :=
  ⟨by decide, by decide⟩

/-- Counterexample to C2 as stated: on input with a zero baseline time the
pipeline crashes with an uncaught ValueError instead of reporting the
failure the way the no-samples case is reported. -/
theorem C2_counterexample :
    main_run c2text = MainOutcome.crashed "ValueError: max() arg is an empty sequence" ∧
    main_run c2text ≠ MainOutcome.noResults :=
  ⟨by decide, by decide⟩

/-- C2 amended: a non-empty sample sequence with zero baseline time makes
the metric calculator return an empty speedup list without raising, and the
downstream report composition then raises an uncaught ValueError on the
empty metrics, so no report document is composed but the run crashes rather
than reporting the failure like the no-samples case. -/
theorem C2_amended (content : List Char) (threads : List Nat) (times : List ℚ)
    (hp : parse_results content = Except.ok (threads, times))
    (hth : threads ≠ []) (h0 : times.head? = some 0) :
    calculate_speedup threads times = Except.ok [] ∧
    main_run content = MainOutcome.crashed "ValueError: max() arg is an empty sequence" := by
  obtain ⟨t0, rest, rfl⟩ : ∃ t0 rest, times = t0 :: rest := by
    cases times with
    | nil => cases h0
    | cons a l => exact ⟨a, l, rfl⟩
  have ht0 : t0 = 0 := by simpa using h0
  subst ht0
  obtain ⟨th0, ths, rfl⟩ : ∃ a l, threads = a :: l := by
    cases threads with
    | nil => exact absurd rfl hth
    | cons a l => exact ⟨a, l, rfl⟩
  have hcs : calculate_speedup (th0 :: ths) (0 :: rest) = Except.ok [] := by
    simp [calculate_speedup]
  refine ⟨hcs, ?_⟩
  have heff : calculate_efficiency (th0 :: ths) [] = Except.ok [] := rfl
  have hgr : generate_report (th0 :: ths) (0 :: rest) [] [] =
      Except.error "ValueError: max() arg is an empty sequence" := rfl
  simp [main_run, hp, hcs, heff, hgr]

/-- Witness for C2 amended, at the concrete zero-baseline input. -/
theorem C2_witness :
    calculate_speedup [1, 2] [0, 5] = Except.ok [] ∧
    main_run c2text = MainOutcome.crashed "ValueError: max() arg is an empty sequence" :=
  C2_amended c2text [1, 2] [0, 5] (by decide) (by decide) (by decide)

/-- Counterexample to C3 as stated: `Threads: 4` has no time field of its
own before the next thread-count token `Threads: 8`, yet the extractor does
match it (pairing it with the time of the later record), and the record for
thread count 8 is not extracted. -/
theorem C3_counterexample :
    parse_results c3text = Except.ok ([4], [100]) ∧
    parse_results c3text ≠ Except.ok ([8], [100]) :=
  ⟨by decide, by decide⟩

/-- C3 amended: a thread-count token with no time field of its own is not
skipped; its match extends across the following thread-count token to the
first execution-time token, which it consumes, so the intervening thread
count is lost (the sample list is exactly [(4, 100)]); only a thread-count
token with no execution-time token anywhere after it yields no sample,
while records before it are still extracted in order (exactly [(2, 5)]). -/
theorem C3_amended_behavior :
    parse_results c3text = Except.ok ([4], [100]) ∧
    parse_results c3tailText = Except.ok ([2], [5]) :=
  ⟨by decide, by decide⟩

/-- C4: at the failing input, a record whose matched time field is the
malformed number 1.2.3 makes `parse_results` raise ValueError from the
float conversion instead of silently skipping the record. -/
theorem C4_crash_eval :
    parse_results c4text = Except.error "ValueError: could not convert string to float" := by
  decide

/-- Counterexample to C5 as stated: the extractor produces the sample
(threadCount 0, time 5) from a `Threads: 0` record, and 0 is not a positive
integer. -/
theorem C5_counterexample :
    parse_results c5text = Except.ok ([0], [5]) ∧ ¬ (0 : Nat) < 0 :=
  ⟨by decide, by decide⟩

/-- C5 amended: every sample produced by the extractor has a non-negative
integer thread count (zero is possible) and a non-negative execution time
in milliseconds. -/
theorem C5_amended (content : List Char) (threads : List Nat) (times : List ℚ)
    (hp : parse_results content = Except.ok (threads, times)) :
    (∀ t ∈ times, 0 ≤ t) ∧ (∀ n ∈ threads, (0 : ℤ) ≤ (n : ℤ)) := by
  unfold parse_results at hp
  rcases hc : convertMatches (parseMatches content) with e | l
  · rw [hc] at hp; cases hp
  · rw [hc] at hp
    have hpair : (l.map Prod.fst, l.map Prod.snd) = (threads, times) := Except.ok.inj hp
    have hth : l.map Prod.fst = threads := congrArg Prod.fst hpair
    have htm : l.map Prod.snd = times := congrArg Prod.snd hpair
    subst hth
    subst htm
    constructor
    · intro t ht
      obtain ⟨p, hpl, rfl⟩ := List.mem_map.mp ht
      exact convertMatches_ok_nonneg _ _ hc p hpl
    · intro n hn
      exact Int.natCast_nonneg n

/-- Witness for C5 amended, at the concrete zero-thread-count input. -/
theorem C5_witness :
    (∀ t ∈ ([5] : List ℚ), 0 ≤ t) ∧ (∀ n ∈ ([0] : List Nat), (0 : ℤ) ≤ (n : ℤ)) :=
  C5_amended c5text [0] [5] (by decide)

/-- C7: the extractor multiplies by 1000 for unit s, divides by 1000 for
unit µs, and leaves ms values unchanged; in particular a 750000µs record
normalizes to exactly 750 ms and a 1.2s record to exactly 1200 ms. -/
theorem C7_unit_conversion :
    (∀ v : ℚ, convertToMs v "s" = v * 1000) ∧
    (∀ v : ℚ, convertToMs v "µs" = v / 1000) ∧
    (∀ v : ℚ, convertToMs v "ms" = v) ∧
    parse_results c7text = Except.ok ([1, 2], [750, 1200]) :=
  ⟨fun _ => rfl, fun _ => rfl, fun _ => rfl, by decide⟩

/-- Counterexample to C8 as stated: the input [1, 0] is neither empty nor
has a zero first element, yet `calculate_speedup` raises ZeroDivisionError
on the zero later element instead of returning the pointwise quotients. -/
theorem C8_counterexample :
    calculate_speedup [1, 2] [1, 0] =
      Except.error "ZeroDivisionError: float division by zero" := by
  decide

/-- C8 amended: on an empty time sequence or one whose first element is
zero, `calculate_speedup` performs no division and returns the empty list;
on a sequence with nonzero first element whose elements are all nonzero it
returns, index for index, the first element divided by each element; on a
sequence with nonzero first element containing a zero later element it
raises ZeroDivisionError. -/
theorem C8_amended (threads : List Nat) :
    calculate_speedup threads [] = Except.ok [] ∧
    (∀ rest : List ℚ, calculate_speedup threads (0 :: rest) = Except.ok []) ∧
    (∀ (t0 : ℚ) (rest : List ℚ), t0 ≠ 0 → (∀ t ∈ rest, t ≠ 0) →
      calculate_speedup threads (t0 :: rest) =
        Except.ok ((t0 :: rest).map (fun t => t0 / t))) ∧
    (∀ (t0 : ℚ) (rest : List ℚ), t0 ≠ 0 → 0 ∈ rest →
      calculate_speedup threads (t0 :: rest) =
        Except.error "ZeroDivisionError: float division by zero") := by
  refine ⟨rfl, fun rest => by simp [calculate_speedup], ?_, ?_⟩
  · intro t0 rest h0 hrest
    have hall : ∀ t ∈ t0 :: rest, t ≠ 0 := by
      intro t ht
      rcases List.mem_cons.mp ht with rfl | ht2
      · exact h0
      · exact hrest t ht2
    simp [calculate_speedup, if_neg h0, mapDiv_ok_of_ne_zero t0 (t0 :: rest) hall]
  · intro t0 rest h0 hmem
    have hmem2 : (0 : ℚ) ∈ t0 :: rest := List.mem_cons_of_mem _ hmem
    simp [calculate_speedup, if_neg h0, mapDiv_error_of_zero_mem t0 (t0 :: rest) hmem2]

/-- Witness for C8 amended, at a concrete two-sample input. -/
theorem C8_witness :
    (500 : ℚ) ≠ 0 ∧ (∀ t ∈ ([300] : List ℚ), t ≠ 0) ∧
    calculate_speedup [1, 2] [500, 300] = Except.ok [1, 5 / 3] := by
  refine ⟨by decide, by decide, ?_⟩
  have h := (C8_amended [1, 2]).2.2.1 500 [300] (by decide) (by decide)
  rw [h]
  decide

/-- C9: for a non-empty time sequence with nonzero baseline, whenever the
speedup calculation returns a series, its first element is exactly 1 (the
baseline compared with itself). -/
theorem C9_baseline_speedup (threads : List Nat) (t0 : ℚ) (rest : List ℚ)
    (l : List ℚ) (h0 : t0 ≠ 0)
    (h : calculate_speedup threads (t0 :: rest) = Except.ok l) :
    l.head? = some 1 := by
  have hcs : calculate_speedup threads (t0 :: rest) =
      match mapDiv t0 rest with
      | Except.error e => Except.error e
      | Except.ok ss => Except.ok (t0 / t0 :: ss) := by
    simp [calculate_speedup, if_neg h0, mapDiv, pyDiv]
  rw [hcs] at h
  rcases hr : mapDiv t0 rest with e | ss
  · rw [hr] at h; cases h
  · rw [hr] at h
    cases h
    simp [div_self h0]

/-- Witness for C9, at a concrete two-sample input. -/
theorem C9_witness :
    (500 : ℚ) ≠ 0 ∧ ([1, (5 : ℚ) / 3] : List ℚ).head? = some 1 :=
  ⟨by decide, C9_baseline_speedup [1, 2] 500 [300] [1, 5 / 3] (by decide) (by decide)⟩

/-- C10: when every thread count paired with a speedup is nonzero,
`calculate_efficiency` succeeds and returns the pointwise efficiencies over
the zip of the two lists, whose length is the minimum of the two input
lengths; an empty speedup list gives an empty result for any thread list. -/
theorem C10_efficiency_total (threads : List Nat) (speedups : List ℚ)
    (h : ∀ p ∈ speedups.zip threads, p.2 ≠ 0) :
    calculate_efficiency threads speedups =
      Except.ok ((speedups.zip threads).map (fun p => p.1 / (p.2 : ℚ) * 100)) ∧
    ((speedups.zip threads).map (fun p => p.1 / (p.2 : ℚ) * 100)).length =
      min speedups.length threads.length ∧
    calculate_efficiency threads [] = Except.ok [] := by
  refine ⟨effMap_ok_of_ne_zero _ h, ?_, rfl⟩
  simp [List.length_zip]

/-- Witness for C10, at a concrete two-sample input. -/
theorem C10_witness :
    (∀ p ∈ ([(1 : ℚ), 5 / 3].zip [1, 2]), p.2 ≠ 0) ∧
    calculate_efficiency [1, 2] [1, 5 / 3] = Except.ok [100, 250 / 3] := by
  refine ⟨by decide, ?_⟩
  have h := (C10_efficiency_total [1, 2] [1, 5 / 3] (by decide)).1
  rw [h]
  decide

/-- C6: for non-empty metrics (with thread and time lists at least as
informative as the speedup list), `generate_report` composes a report whose
observation data carry the first index attaining the maximum speedup, the
thread count at that index, the maximum value itself, the baseline time
`times[0]`, and exactly one of the three fixed narrative branches selected
by the thresholds: limited below 3/2, good above 2, moderate between. -/
theorem C6_narrative (threads : List Nat) (times speedups efficiencies : List ℚ)
    (hsp : speedups ≠ []) (htm : times ≠ [])
    (hlen : speedups.length ≤ threads.length) :
    ∃ r : Report,
      generate_report threads times speedups efficiencies = Except.ok r ∧
      speedups[r.maxSpeedupIdx]? = some r.maxSpeedup ∧
      (∀ x ∈ speedups, x ≤ r.maxSpeedup) ∧
      (∀ j, j < r.maxSpeedupIdx → speedups[j]? ≠ some r.maxSpeedup) ∧
      threads[r.maxSpeedupIdx]? = some r.bestThreads ∧
      times[0]? = some r.baselineTime ∧
      ((r.maxSpeedup < 3 / 2 ∧ r.branch = ScalingBranch.limited) ∨
        (2 < r.maxSpeedup ∧ r.branch = ScalingBranch.good) ∨
        (3 / 2 ≤ r.maxSpeedup ∧ r.maxSpeedup ≤ 2 ∧
          r.branch = ScalingBranch.moderate)) := by
  obtain ⟨m, hm⟩ : ∃ m, pyMax speedups = some m := by
    cases speedups with
    | nil => exact absurd rfl hsp
    | cons c cs => exact ⟨pyMaxAux c cs, rfl⟩
  have hmem := pyMax_mem hm
  have hge := pyMax_ge hm
  obtain ⟨idx, hidx⟩ := pyIndex_isSome hmem
  have hget := pyIndex_getElem hidx
  have hfirst := pyIndex_first hidx
  have hlt : idx < speedups.length := getElem?_lt_length hget
  have hltth : idx < threads.length := lt_of_lt_of_le hlt hlen
  obtain ⟨bt, hbt⟩ := getElem?_isSome_of_lt hltth
  have h0 : 0 < times.length := by
    cases times with
    | nil => exact absurd rfl htm
    | cons a l => simp
  obtain ⟨t0, ht0⟩ := getElem?_isSome_of_lt h0
  refine ⟨{ tableRows := zip4 threads times speedups efficiencies
            maxSpeedupIdx := idx
            bestThreads := bt
            maxSpeedup := m
            baselineTime := t0
            branch :=
              if m < 3 / 2 then ScalingBranch.limited
              else if 2 < m then ScalingBranch.good
              else ScalingBranch.moderate }, ?_, hget, hge, hfirst, hbt, ht0, ?_⟩
  · simp only [generate_report, hm, hidx, hbt, ht0]
  · by_cases h1 : m < 3 / 2
    · exact Or.inl ⟨h1, by simp [h1]⟩
    · by_cases h2 : 2 < m
      · refine Or.inr (Or.inl ⟨h2, ?_⟩)
        simp [if_neg h1, if_pos h2]
      · refine Or.inr (Or.inr ⟨le_of_not_lt h1, le_of_not_lt h2, ?_⟩)
        simp [if_neg h1, if_neg h2]

/-- Witness for C6, at the concrete two-sample scenario of the spec. -/
theorem C6_witness :
    ∃ r : Report,
      generate_report [1, 2] [500, 300] [1, 5 / 3] [100, 250 / 3] = Except.ok r ∧
      ([1, (5 : ℚ) / 3] : List ℚ)[r.maxSpeedupIdx]? = some r.maxSpeedup ∧
      (∀ x ∈ ([1, (5 : ℚ) / 3] : List ℚ), x ≤ r.maxSpeedup) ∧
      (∀ j, j < r.maxSpeedupIdx →
        ([1, (5 : ℚ) / 3] : List ℚ)[j]? ≠ some r.maxSpeedup) ∧
      ([1, 2] : List Nat)[r.maxSpeedupIdx]? = some r.bestThreads ∧
      ([500, (300 : ℚ)] : List ℚ)[0]? = some r.baselineTime ∧
      ((r.maxSpeedup < 3 / 2 ∧ r.branch = ScalingBranch.limited) ∨
        (2 < r.maxSpeedup ∧ r.branch = ScalingBranch.good) ∨
        (3 / 2 ≤ r.maxSpeedup ∧ r.maxSpeedup ≤ 2 ∧
          r.branch = ScalingBranch.moderate)) :=
  C6_narrative [1, 2] [500, 300] [1, 5 / 3] [100, 250 / 3]
    (by decide) (by decide) (by decide)
